import Mathlib

/-!
Shallow embedding of the TrueAchievements integration's fetch/cache/parse
pipeline (`custom_components/trueachievements/coordinator.py`) and proofs of
the specified properties.

String-processing primitives are implemented over `List Char` so that every
definition reduces inside the kernel; each one is documented with the Python
operation of the source it models (ASCII fragment, which is the domain of the
CSV export this code consumes).
-/

namespace TrueAch

/-- Python truthiness for strings: a string is falsy exactly when empty. -/
def strEmpty (s : String) : Bool :=
  s.data.isEmpty

/-- ASCII whitespace recognized by Python's `str.strip()`. -/
def isWs (c : Char) : Bool :=
  c == ' ' || c == '\t' || c == '\n' || c == '\r' || c == '\x0b' || c == '\x0c'

/-- Python `str.strip()`: remove whitespace from both ends. -/
def trimStr (s : String) : String :=
  String.mk (((s.data.dropWhile isWs).reverse.dropWhile isWs).reverse)

/-- Python `str.lower()` on the ASCII range. -/
def lowerChar (c : Char) : Char :=
  if 'A' ≤ c && c ≤ 'Z' then Char.ofNat (c.toNat + 32) else c

/-- Python `str.lower()`. -/
def lowerStr (s : String) : String :=
  String.mk (s.data.map lowerChar)

/-- Python `s.replace('"', "")`: delete every double-quote character. -/
def removeQuotes (s : String) : String :=
  String.mk (s.data.filter (fun c => !(c == '"')))

/-- Python `s.replace(" ", "_")` used to build notification ids. -/
def underscoreSpaces (s : String) : String :=
  String.mk (s.data.map (fun c => if c == ' ' then '_' else c))

/-- Whether `pre` is a prefix of `l` (used for substring search and
Python `str.startswith`). -/
def isPrefixList : List Char → List Char → Bool
  | [], _ => true
  | _ :: _, [] => false
  | a :: as, b :: bs => a == b && isPrefixList as bs

/-- Whether the pattern occurs as a contiguous sublist. -/
def subOccurs (pat : List Char) : List Char → Bool
  | [] => pat.isEmpty
  | c :: rest => isPrefixList pat (c :: rest) || subOccurs pat rest

/-- Python's substring test `pat in s` (the empty pattern matches anywhere). -/
def containsSub (s pat : String) : Bool :=
  subOccurs pat.data s.data

/-- Python `str.startswith`. -/
def startsWithStr (s pre : String) : Bool :=
  isPrefixList pre.data s.data

/-- The cell normalization of `coordinator.py` line 257/245:
`v.replace('"', "").strip()`. -/
def normStr (s : String) : String :=
  trimStr (removeQuotes s)

/-- ASCII decimal digit test (Python regex `\d` on the ASCII range). -/
def isDigitChar (c : Char) : Bool :=
  '0' ≤ c && c ≤ '9'

/-- The defensive numeric coercion `s_int` of `coordinator.py` lines 248-253:
strip every non-digit character, parse the remainder as a non-negative
integer, defaulting to 0 on an empty remainder.  Never fails. -/
def s_int (v : String) : Nat :=
  (v.data.filter isDigitChar).foldl (fun n c => n * 10 + (c.toNat - 48)) 0

/-- Decimal digit character for rendering naturals. -/
def digitChar (n : Nat) : Char :=
  Char.ofNat (48 + n)

/-- Fuel-driven decimal rendering (fuel bounds the number of digit steps). -/
def natDigits : Nat → Nat → List Char
  | 0, _ => []
  | f + 1, n => if n < 10 then [digitChar n] else natDigits f (n / 10) ++ [digitChar (n % 10)]

/-- Decimal rendering of a natural number, as Python `str(n)`. -/
def natToStr (n : Nat) : String :=
  String.mk (natDigits (n + 1) n)

/-! ## CSV row model

`csv.DictReader` pairs the (normalized) header row with each record
positionally; a Python dict keeps the last value for a duplicated key, and a
record shorter than the header fills the missing cells with `restval = None`,
which the normalization comprehension of lines 256-261 coerces to `""`.  A
record longer than the header puts the surplus cells under the `None` restkey,
on which the comprehension's `k.replace` raises `AttributeError` (caught by
the whole-file `except`), which the processing loop below models as an early
exit. -/

/-- One normalized row as the ordered key/value pairs of
`dict(zip(fieldnames, record))` after the comprehension of lines 256-261. -/
def mkRow (nfields : List String) (vals : List String) : List (String × String) :=
  (List.range nfields.length).map
    (fun i => (normStr (nfields.getD i ""),
               if i < vals.length then normStr (vals.getD i "") else ""))

/-- Python `row.get(k, d)`: the value stored under `k` (dict semantics: the
last pair wins for a duplicated key), else the default. -/
def dget (row : List (String × String)) (k : String) (d : String) : String :=
  match (row.filter (fun p => p.1 = k)).getLast? with
  | some p => p.2
  | none => d

/-- The row's game name (`row.get("Game name", "")`, line 263). -/
def rowNameOf (nfields vals : List String) : String :=
  dget (mkRow nfields vals) "Game name" ""

/-- The row's platform (`row.get("Platform", "")`, line 264). -/
def rowPlatOf (nfields vals : List String) : String :=
  dget (mkRow nfields vals) "Platform" ""

/-- The exclusion test of lines 268-270: the platform contains the
(lower-case) substring `"app"`, or the lower-cased game name contains one of
the configured excluded substrings. -/
def rowExcluded (nfields : List String) (excl : List String) (vals : List String) : Bool :=
  containsSub (rowPlatOf nfields vals) "app"
    || excl.any (fun x => containsSub (lowerStr (rowNameOf nfields vals)) x)

/-- The current-game match guard of lines 279-282:
`lookup_name and lookup_name.lower().strip() == name_in_csv.lower().strip()`. -/
def matchGuard (lookup : Option String) (nameInCsv : String) : Bool :=
  match lookup with
  | none => false
  | some l => !strEmpty l && (trimStr (lowerStr l) = trimStr (lowerStr nameInCsv) : Bool)

/-- A row is processed (not `continue`d) and satisfies the current-game match:
non-empty name, not excluded, and the match guard holds. -/
def rowMatches (nfields : List String) (lookup : Option String) (excl : List String)
    (vals : List String) : Bool :=
  !strEmpty (rowNameOf nfields vals) && !rowExcluded nfields excl vals
    && matchGuard lookup (rowNameOf nfields vals)

/-! ## Data model of the produced snapshot -/

/-- The `current_game_stats` dict built at lines 284-299.  The `name` field
stores the raw `current_game_name` argument verbatim (it is `None`-able in
Python, hence `Option String`). -/
structure GameDetail where
  name : Option String
  platform : String
  achievements : String
  gamerscore : String
  ta_score : String
  hours_played : String
  game_completion : String
  game_ratio : String
  game_url : String
  walkthrough_url : Option String
deriving DecidableEq, Repr

/-- The dict returned at lines 330-341, keyed as in `const.py`.
`completion_percentage` is modeled over `ℚ` (Python computes it in floating
point; the spec's formula `round(total/max*100, 2)` is modeled exactly). -/
structure Snapshot where
  gamerscore : Nat
  ta_score : Nat
  total_games : Nat
  completed_games : Nat
  total_achievements : Nat
  completion_percentage : ℚ
  current_game_name : String
  current_game_details : Option GameDetail
deriving DecidableEq, Repr

/-- A `persistent_notification.create` call's payload. -/
structure Notif where
  title : String
  message : String
  notification_id : String
deriving DecidableEq, Repr

/-- The loop accumulator of line 228 plus the `current_game_stats` dict
(empty dict modeled as `none`). -/
structure LoopSt where
  total_gs : Nat
  total_ta : Nat
  total_ach : Nat
  max_ach : Nat
  completed : Nat
  started : Nat
  detail : Option GameDetail
deriving DecidableEq, Repr

/-- Initial accumulator (line 228-229). -/
def LoopSt.init : LoopSt :=
  ⟨0, 0, 0, 0, 0, 0, none⟩

/-- `GAME_NAME_MAPPING` of `const.py` (one entry). -/
def GAME_NAME_MAPPING (s : String) : Option String :=
  if s = "Minecraft for Android" then some "Minecraft (Android)" else none

/-- Modelled from the spec: `coordinator.py` imports `ISSUE_URL_MAPPING` from
`const.py`, which does not define it; the spec's "Report here" notification
and `const.py`'s `ISSUE_URL` point at the repository's issue page, which is
used here.  Only the message text of the unmatched-game notification depends
on it. -/
def ISSUE_URL_MAPPING : String :=
  "https://github.com/dckiller51/trueachievements/issues"

/-- Lines 231-233: translate the externally reported name through
`GAME_NAME_MAPPING` (unmapped names pass through unchanged). -/
def lookupNameOf (raw : Option String) : Option String :=
  raw.map (fun n => (GAME_NAME_MAPPING n).getD n)

/-- The `current_game_stats` dict construction of lines 283-299. -/
def buildDetail (raw : Option String) (nfields vals : List String) : GameDetail :=
  let row := mkRow nfields vals
  let gs_won := s_int (dget row "GamerScore Won (incl. DLC)" "")
  let ta_won := s_int (dget row "TrueAchievement Won (incl. DLC)" "")
  let ach_won := s_int (dget row "Achievements Won (incl. DLC)" "")
  let ach_max := s_int (dget row "Max Achievements (incl. DLC)" "")
  let walkthrough := trimStr (dget row "Walkthrough" "")
  { name := raw
    platform := rowPlatOf nfields vals
    achievements := natToStr ach_won ++ " / " ++ natToStr ach_max
    gamerscore := natToStr gs_won ++ " G"
    ta_score := natToStr ta_won ++ " TA"
    hours_played := dget row "Hours Played" "0" ++ " h"
    game_completion := dget row "My Completion Percentage" "0" ++ "%"
    game_ratio := dget row "My Ratio" "1.00"
    game_url :=
      (let gu := dget row "Game URL" ""
       if !strEmpty gu then gu
       else (let u := dget row "URL" ""
             if !strEmpty u then u else "N/A"))
    walkthrough_url :=
      if !strEmpty walkthrough && startsWithStr walkthrough "http" then some walkthrough
      else none }

/-- One iteration of the `for row in reader` loop (lines 255-308).
`Except.error` models the `AttributeError` raised while normalizing a record
longer than the header (surplus cells live under the `None` restkey); the
carried state is what the variables hold when control reaches the `except`
handler. -/
def processRecord (nfields : List String) (lookup raw : Option String) (excl : List String)
    (s : LoopSt) (vals : List String) : Except LoopSt LoopSt :=
  if nfields.length < vals.length then .error s
  else
    let row := mkRow nfields vals
    let name_in_csv := rowNameOf nfields vals
    if strEmpty name_in_csv then .ok s
    else if rowExcluded nfields excl vals then .ok s
    else
      let gs_won := s_int (dget row "GamerScore Won (incl. DLC)" "")
      let ta_won := s_int (dget row "TrueAchievement Won (incl. DLC)" "")
      let ach_won := s_int (dget row "Achievements Won (incl. DLC)" "")
      let ach_max := s_int (dget row "Max Achievements (incl. DLC)" "")
      let s1 :=
        if matchGuard lookup name_in_csv then
          { s with detail := some (buildDetail raw nfields vals) }
        else s
      let s2 :=
        if ach_won > 0 then
          { s1 with
            total_gs := s1.total_gs + gs_won
            total_ta := s1.total_ta + ta_won
            total_ach := s1.total_ach + ach_won
            max_ach := s1.max_ach + ach_max
            started := s1.started + 1
            completed := if ach_won ≥ ach_max ∧ ach_max > 0 then s1.completed + 1 else s1.completed }
        else s1
      .ok s2

/-- The state carried out of a loop iteration, whether or not that iteration
raised. -/
def stateOf : Except LoopSt LoopSt → LoopSt
  | .ok s => s
  | .error s => s

/-- Run the row loop over the records; the boolean records whether an
exception aborted the scan (in which case the remaining records are never
visited and the partially accumulated state is what the `return` block
sees). -/
def runRecords (nfields : List String) (lookup raw : Option String) (excl : List String) :
    LoopSt → List (List String) → LoopSt × Bool
  | s, [] => (s, false)
  | s, v :: vs =>
    match processRecord nfields lookup raw excl s v with
    | .error s' => (s', true)
    | .ok s' => runRecords nfields lookup raw excl s' vs

/-! ## Rounding

Python's `round(x, 2)` rounds to the nearest multiple of `1/100` with ties to
even; it is modeled exactly over `ℚ` (the source computes `total/max*100` in
floating point; the rational model follows the spec's formula). -/

/-- Round a rational to the nearest integer, ties to even. -/
def rne (q : ℚ) : ℤ :=
  if q - ⌊q⌋ = 1 / 2 then (if 2 ∣ ⌊q⌋ then ⌊q⌋ else ⌊q⌋ + 1) else ⌊q + 1 / 2⌋

/-- Python `round(q, 2)`. -/
def round2 (q : ℚ) : ℚ :=
  (rne (q * 100) : ℚ) / 100

/-! ## The whole-file parse -/

/-- The condition of the cache file as seen by `_read_and_process_csv`:
missing (line 235), unreadable (`open` raises, caught at line 327), or a
header row plus data records as produced by `csv.DictReader`. -/
inductive FileState where
  | absent
  | unreadable
  | csv (fields : List String) (records : List (List String))
deriving DecidableEq, Repr

/-- The outcome of one `_read_and_process_csv` call: the returned dict
(`none` models the bare `return {}` of lines 236 and 242), the notifications
emitted during the call, and the updated `_notified_games` set. -/
structure ParseResult where
  result : Option Snapshot
  notifs : List Notif
  notified : List String
deriving DecidableEq, Repr

/-- The unmatched-game notification of lines 316-325. -/
def unmatchedNotif (l : String) : Notif :=
  { title := "TrueAchievements: Action Required"
    message := "Game **" ++ l ++ "** not matching. [Report here](" ++ ISSUE_URL_MAPPING ++ ")"
    notification_id := "ta_fix_" ++ underscoreSpaces l }

/-- The `return` dict of lines 330-341 assembled from the loop state. -/
def mkSnapshot (s : LoopSt) (raw : Option String) : Snapshot :=
  { gamerscore := s.total_gs
    ta_score := s.total_ta
    total_games := s.started
    completed_games := s.completed
    total_achievements := s.total_ach
    completion_percentage :=
      if s.max_ach > 0 then round2 ((s.total_ach : ℚ) / (s.max_ach : ℚ) * 100) else 0
    current_game_name :=
      match raw with
      | some n => if strEmpty n then "offline_status" else n
      | none => "offline_status"
    current_game_details := s.detail }

/-- `TrueAchievementsCoordinator._read_and_process_csv` (lines 226-341).
The `raw` argument is the externally reported current game name, `excl` the
already-split excluded-apps substrings, and `notified` the coordinator's
`_notified_games` set on entry. -/
def read_and_process_csv (fs : FileState) (raw : Option String) (excl : List String)
    (notified : List String) : ParseResult :=
  let lookup := lookupNameOf raw
  match fs with
  | .absent => ⟨none, [], notified⟩
  | .unreadable => ⟨some (mkSnapshot LoopSt.init raw), [], notified⟩
  | .csv fields records =>
    if fields.isEmpty then ⟨none, [], notified⟩
    else
      let nfields := fields.map normStr
      match runRecords nfields lookup raw excl LoopSt.init records with
      | (s, true) => ⟨some (mkSnapshot s raw), [], notified⟩
      | (s, false) =>
        match lookup with
        | none => ⟨some (mkSnapshot s raw), [], notified⟩
        | some l =>
          if ¬strEmpty l ∧ s.detail = none ∧ l ∉ notified then
            ⟨some (mkSnapshot s raw), [unmatchedNotif l], notified ++ [l]⟩
          else ⟨some (mkSnapshot s raw), [], notified⟩

/-- The loop state a parse run ends with (the accumulator feeding the
`return` dict); `LoopSt.init` for the paths that never enter the loop. -/
def loopStateOf (fs : FileState) (raw : Option String) (excl : List String) : LoopSt :=
  match fs with
  | .csv fields records =>
    if fields.isEmpty then LoopSt.init
    else (runRecords (fields.map normStr) (lookupNameOf raw) raw excl LoopSt.init records).1
  | _ => LoopSt.init

/-! ## Cache/refresh controller

Timestamps are rational seconds (`os.path.getmtime` returns fractional
seconds); 24 hours is 86400 seconds. -/

/-- The on-disk cache file: its bytes and its modification time. -/
structure FileRec where
  content : String
  mtime : ℚ
deriving DecidableEq, Repr

/-- The controller state touched by `_async_update_data`: the sticky
auth-failure flag, the cache file (if any), the notifications emitted so far,
and the last-successful-update timestamp. -/
structure CtrlState where
  authFailed : Bool
  file : Option FileRec
  notifs : List Notif
  lastValidUpdate : Option ℚ
deriving DecidableEq, Repr

/-- The expired-cookie notification of `_send_error_notification`
(lines 193-204); its id is the constant `"ta_access_error"`. -/
def authErrorNotif (gamerTag : String) : Notif :=
  { title := "TrueAchievements: Access Error"
    message := "The cookie for **" ++ gamerTag ++ "** has expired."
    notification_id := "ta_access_error" }

/-- The 24h freshness decision of lines 105-115: download unless the cache
file exists and is younger than 24 hours. -/
def should_download (st : CtrlState) (now : ℚ) : Bool :=
  match st.file with
  | none => true
  | some f => !(now - f.mtime < 86400 : Bool)

/-- Line 117: the network fetch is attempted iff `should_download` holds and
the auth-failure flag is clear. -/
def does_network_fetch (st : CtrlState) (now : ℚ) : Bool :=
  should_download st now && !st.authFailed

/-- The outcome of the HTTP GET: a response, or a transport failure caught by
the `except` of line 168. -/
inductive HttpResult where
  | resp (status : Nat) (body : String)
  | netError
deriving DecidableEq, Repr

/-- `_write_file` (lines 188-191): persist the bytes verbatim; writing sets
the file's modification time to the current time. -/
def write_file (st : CtrlState) (content : String) (now : ℚ) : CtrlState :=
  { st with file := some { content := content, mtime := now } }

/-- The response handling of lines 131-169: HTTP 200 with a plausible CSV
body (size threshold and header marker) persists and clears the flag; HTTP
200 with an implausible body sets the flag and notifies; HTTP 401/403 sets
the flag, notifies, and touches the existing cache file (content preserved,
mtime set to now); anything else, and any transport error, changes nothing. -/
def downloadStep (st : CtrlState) (gamerTag : String) (h : HttpResult) (now : ℚ) : CtrlState :=
  match h with
  | .netError => st
  | .resp status body =>
    if status = 200 then
      if body.length > 1000 && containsSub body "Game name" then
        { write_file st body now with lastValidUpdate := some now, authFailed := false }
      else
        { st with authFailed := true, notifs := st.notifs ++ [authErrorNotif gamerTag] }
    else if status = 401 ∨ status = 403 then
      let st1 := { st with authFailed := true, notifs := st.notifs ++ [authErrorNotif gamerTag] }
      match st1.file with
      | some f => { st1 with file := some { content := f.content, mtime := now } }
      | none => st1
    else st

/-- The download phase of one refresh cycle (lines 104-169): the fetch runs
only when `does_network_fetch` holds; the boolean reports whether a network
call was made. -/
def refreshStep (st : CtrlState) (now : ℚ) (gamerTag : String) (h : HttpResult) :
    CtrlState × Bool :=
  if does_network_fetch st now then (downloadStep st gamerTag h now, true) else (st, false)

/-! ## CSV lexer

Models Python's `csv.reader` with the default dialect (delimiter `,`,
quote `"`, doubled quotes, non-strict) over a text stream opened with
`encoding="utf-8-sig"` (byte-order mark stripped, universal newlines). -/

/-- Strip a leading byte-order mark, as `utf-8-sig` decoding does. -/
def stripBom (s : String) : String :=
  match s.data with
  | c :: rest => if c = Char.ofNat 0xFEFF then String.mk rest else s
  | [] => s

/-- Universal-newline translation of Python text mode: `\r\n` and lone `\r`
become `\n`. -/
def normNl : List Char → List Char
  | [] => []
  | '\r' :: '\n' :: rest => '\n' :: normNl rest
  | '\r' :: rest => '\n' :: normNl rest
  | c :: rest => c :: normNl rest

/-- Lexer mode of the `csv.reader` state machine. -/
inductive CsvMode where
  | startRecord
  | startField
  | inField
  | inQuoted
  | quoteQuoted
deriving DecidableEq, Repr

/-- The `csv.reader` state machine: characters, mode, current field, current
record, accumulated records. -/
def csvAux : List Char → CsvMode → String → List String → List (List String) →
    List (List String)
  | [], mode, field, recd, acc =>
    (match mode with
     | .startRecord => acc
     | _ => acc ++ [recd ++ [field]])
  | c :: cs, mode, field, recd, acc =>
    match mode with
    | .startRecord =>
      if c = '\n' then csvAux cs .startRecord "" [] (acc ++ [[]])
      else if c = '"' then csvAux cs .inQuoted "" [] acc
      else if c = ',' then csvAux cs .startField "" [""] acc
      else csvAux cs .inField (String.mk [c]) [] acc
    | .startField =>
      if c = '\n' then csvAux cs .startRecord "" [] (acc ++ [recd ++ [""]])
      else if c = '"' then csvAux cs .inQuoted "" recd acc
      else if c = ',' then csvAux cs .startField "" (recd ++ [""]) acc
      else csvAux cs .inField (String.mk [c]) recd acc
    | .inField =>
      if c = '\n' then csvAux cs .startRecord "" [] (acc ++ [recd ++ [field]])
      else if c = ',' then csvAux cs .startField "" (recd ++ [field]) acc
      else csvAux cs .inField (String.mk (field.data ++ [c])) recd acc
    | .inQuoted =>
      if c = '"' then csvAux cs .quoteQuoted field recd acc
      else csvAux cs .inQuoted (String.mk (field.data ++ [c])) recd acc
    | .quoteQuoted =>
      if c = '"' then csvAux cs .inQuoted (String.mk (field.data ++ ['"'])) recd acc
      else if c = ',' then csvAux cs .startField "" (recd ++ [field]) acc
      else if c = '\n' then csvAux cs .startRecord "" [] (acc ++ [recd ++ [field]])
      else csvAux cs .inField (String.mk (field.data ++ [c])) recd acc

/-- All records of the decoded text. -/
def csvRows (content : String) : List (List String) :=
  csvAux (normNl (stripBom content).data) .startRecord "" [] []

/-- The `FileState` a present cache file with the given bytes presents to the
parse: the first record is `DictReader`'s header row (an empty file has no
header, which the `fieldnames` truthiness check maps to the same `return {}`
path as an empty header). -/
def fileStateOfContent (content : String) : FileState :=
  match csvRows content with
  | [] => .csv [] []
  | f :: rs => .csv f rs

/-- Parse whatever is on disk (step 4 of the controller: absent file included). -/
def parseFromFile (file : Option FileRec) (raw : Option String) (excl : List String)
    (notified : List String) : ParseResult :=
  match file with
  | none => read_and_process_csv .absent raw excl notified
  | some f => read_and_process_csv (fileStateOfContent f.content) raw excl notified

/-- Header row of the export columns the aggregation reads (used by the
concrete test inputs below). -/
def F6 : List String :=
  ["Game name", "Platform", "GamerScore Won (incl. DLC)", "TrueAchievement Won (incl. DLC)",
   "Achievements Won (incl. DLC)", "Max Achievements (incl. DLC)"]

/-! ## Helper lemmas -/

/-- Every returned dict is the `return` block applied to the final loop
state. -/
lemma result_eq_mkSnapshot (fs : FileState) (raw : Option String) (excl nt : List String)
    (snap : Snapshot) (h : (read_and_process_csv fs raw excl nt).result = some snap) :
    snap = mkSnapshot (loopStateOf fs raw excl) raw := by
  unfold read_and_process_csv loopStateOf at *
  cases fs with
  | absent => simp at h
  | unreadable => simp at h; exact h.symm
  | csv fields records =>
    by_cases hf : fields.isEmpty
    · simp [hf] at h
    · simp only [hf, Bool.false_eq_true, if_false] at h ⊢
      rcases hrun : runRecords (fields.map normStr) (lookupNameOf raw) raw excl .init records
        with ⟨s, b⟩
      rw [hrun] at h
      cases b with
      | true => simp at h; exact h.symm
      | false =>
        rcases hl : lookupNameOf raw with _ | l <;> rw [hl] at h
        · simp at h; exact h.symm
        · simp only [] at h
          split at h <;> (simp at h; exact h.symm)

/-- A row that the loop `continue`s past leaves the accumulator untouched:
empty (normalized) game name. -/
lemma processRecord_empty_name (nfields : List String) (lookup raw : Option String)
    (excl : List String) (s : LoopSt) (vals : List String)
    (h : strEmpty (rowNameOf nfields vals) = true) :
    stateOf (processRecord nfields lookup raw excl s vals) = s := by
  unfold processRecord
  by_cases hc : nfields.length < vals.length
  · simp [hc, stateOf]
  · simp [hc, h, stateOf]

/-- A row that the loop `continue`s past leaves the accumulator untouched:
excluded row. -/
lemma processRecord_excluded (nfields : List String) (lookup raw : Option String)
    (excl : List String) (s : LoopSt) (vals : List String)
    (h : rowExcluded nfields excl vals = true) :
    stateOf (processRecord nfields lookup raw excl s vals) = s := by
  unfold processRecord
  by_cases hc : nfields.length < vals.length
  · simp [hc, stateOf]
  · by_cases hn : strEmpty (rowNameOf nfields vals)
    · simp [hc, hn, stateOf]
    · simp [hc, hn, h, stateOf]

/-! ## Claim C1 -/

/-- C1 counterexample: a row whose platform field is exactly `"App"` — which
contains the string `"App"` — is NOT excluded: the exclusion test at line 268
checks for the lower-case substring `"app"` case-sensitively, so the row's
achievements (5), gamerscore (10), tracker score (20), max achievements (10)
and started count (1) all enter the aggregate totals. -/
theorem c1_counterexample :
    rowPlatOf (F6.map normStr) ["X", "App", "10", "20", "5", "10"] = "App" ∧
    containsSub "App" "App" = true ∧
    containsSub "App" "app" = false ∧
    (loopStateOf (.csv F6 [["X", "App", "10", "20", "5", "10"]]) none []).total_ach = 5 ∧
    (loopStateOf (.csv F6 [["X", "App", "10", "20", "5", "10"]]) none []).total_gs = 10 ∧
    (loopStateOf (.csv F6 [["X", "App", "10", "20", "5", "10"]]) none []).total_ta = 20 ∧
    (loopStateOf (.csv F6 [["X", "App", "10", "20", "5", "10"]]) none []).max_ach = 10 ∧
    (loopStateOf (.csv F6 [["X", "App", "10", "20", "5", "10"]]) none []).started = 1 := by
  decide

/-- C1 (amended): for every CSV row whose platform field contains the
lower-case string `"app"` (the containment is case-sensitive), the row is
excluded from all aggregate totals — gamerscore, tracker score, achievements,
games started, completed games and the completion-percentage denominator —
even when its achievements-won value is greater than 0: the loop iteration
leaves the whole accumulator unchanged. -/
theorem c1_lowercase_app_rows_excluded (nfields : List String) (lookup raw : Option String)
    (excl : List String) (s : LoopSt) (vals : List String)
    (h : containsSub (rowPlatOf nfields vals) "app" = true) :
    stateOf (processRecord nfields lookup raw excl s vals) = s := by
  apply processRecord_excluded
  unfold rowExcluded
  simp [h]

/-- C1 witness: the amended theorem applied to a concrete row with platform
`"Windows app"` and 5 achievements won. -/
theorem c1_witness :
    stateOf (processRecord (F6.map normStr) none none []
      LoopSt.init ["X", "Windows app", "10", "20", "5", "10"]) = LoopSt.init :=
  c1_lowercase_app_rows_excluded (F6.map normStr) none none [] LoopSt.init
    ["X", "Windows app", "10", "20", "5", "10"] (by decide)

/-! ## Claim C9 -/

/-- C9: every CSV row whose game-name cell normalizes (quote-stripping and
trimming) to the empty string is skipped entirely: the loop iteration leaves
the whole accumulator — every aggregate total and the current-game detail —
unchanged, regardless of the row's other fields. -/
theorem c9_empty_name_skipped (nfields : List String) (lookup raw : Option String)
    (excl : List String) (s : LoopSt) (vals : List String)
    (h : rowNameOf nfields vals = "") :
    stateOf (processRecord nfields lookup raw excl s vals) = s := by
  apply processRecord_empty_name
  rw [h]
  decide

/-- C9 witness: a row whose game-name cell is `"  "` (quotes and blanks
only) with achievements won and a matching lookup name contributes nothing. -/
theorem c9_witness :
    stateOf (processRecord (F6.map normStr) (some "x") (some "x") []
      LoopSt.init ["\"  \"", "Xbox", "10", "20", "5", "10"]) = LoopSt.init :=
  c9_empty_name_skipped (F6.map normStr) (some "x") (some "x") [] LoopSt.init
    ["\"  \"", "Xbox", "10", "20", "5", "10"] (by decide)

/-! ## Detail-tracking lemmas (claims C2 and C10) -/

/-- A record that fits the header never raises: it is processed normally. -/
lemma processRecord_fit (nfields : List String) (lookup raw : Option String)
    (excl : List String) (s : LoopSt) (vals : List String)
    (h : ¬nfields.length < vals.length) :
    processRecord nfields lookup raw excl s vals =
      .ok (stateOf (processRecord nfields lookup raw excl s vals)) := by
  unfold processRecord
  simp only [h, if_false]
  split
  · rfl
  · split
    · rfl
    · rfl

/-- The detail slot a processed record leaves behind: overwritten with this
row's detail when the row matches, untouched otherwise. -/
lemma processRecord_detail (nfields : List String) (lookup raw : Option String)
    (excl : List String) (s : LoopSt) (vals : List String)
    (h : ¬nfields.length < vals.length) :
    (stateOf (processRecord nfields lookup raw excl s vals)).detail =
      if rowMatches nfields lookup excl vals then some (buildDetail raw nfields vals)
      else s.detail := by
  unfold processRecord rowMatches
  by_cases hn : strEmpty (rowNameOf nfields vals)
  · simp [h, hn, stateOf]
  · by_cases he : rowExcluded nfields excl vals
    · simp [h, hn, he, stateOf]
    · by_cases hm : matchGuard lookup (rowNameOf nfields vals)
      · simp [h, hn, he, hm, stateOf]
        split <;> rfl
      · simp [h, hn, he, hm, stateOf]
        split <;> rfl

/-- Fold capturing how the `current_game_stats` dict evolves over the scan. -/
def lastMatchDetail (nfields : List String) (lookup raw : Option String) (excl : List String)
    (l : List (List String)) (dflt : Option GameDetail) : Option GameDetail :=
  l.foldl
    (fun acc r => if rowMatches nfields lookup excl r then some (buildDetail raw nfields r)
                  else acc) dflt

/-- Over a crash-free scan the loop's detail slot is that fold. -/
lemma runRecords_detail (nfields : List String) (lookup raw : Option String)
    (excl : List String) :
    ∀ (l : List (List String)) (s : LoopSt), (∀ r ∈ l, r.length ≤ nfields.length) →
      ((runRecords nfields lookup raw excl s l).1).detail =
        lastMatchDetail nfields lookup raw excl l s.detail := by
  intro l
  induction l with
  | nil => intro s _; rfl
  | cons v vs ih =>
    intro s hfit
    have hv : ¬nfields.length < v.length := by
      have := hfit v (by simp)
      omega
    have hrest : ∀ r ∈ vs, r.length ≤ nfields.length := by
      intro r hr; exact hfit r (by simp [hr])
    unfold runRecords
    rw [processRecord_fit nfields lookup raw excl s v hv]
    rw [ih _ hrest]
    unfold lastMatchDetail
    rw [List.foldl_cons, processRecord_detail nfields lookup raw excl s v hv]

/-- The fold keeps the detail of the last row satisfying the predicate. -/
lemma lastMatchDetail_eq_getLast (nfields : List String) (lookup raw : Option String)
    (excl : List String) :
    ∀ (l : List (List String)) (dflt : Option GameDetail),
      lastMatchDetail nfields lookup raw excl l dflt =
        match (l.filter (rowMatches nfields lookup excl)).getLast? with
        | some rm => some (buildDetail raw nfields rm)
        | none => dflt := by
  intro l
  induction l with
  | nil => intro dflt; rfl
  | cons v vs ih =>
    intro dflt
    unfold lastMatchDetail
    rw [List.foldl_cons]
    by_cases hv : rowMatches nfields lookup excl v
    · rw [if_pos hv]
      have hstep := ih (some (buildDetail raw nfields v))
      unfold lastMatchDetail at hstep
      rw [hstep]
      rw [List.filter_cons_of_pos (by simpa using hv)]
      cases hfe : vs.filter (rowMatches nfields lookup excl) with
      | nil => simp
      | cons x xs =>
        rw [List.getLast?_cons_cons]
        rcases hgl : (x :: xs).getLast? with _ | rm
        · simp at hgl
        · rfl
    · rw [if_neg hv]
      have hstep := ih dflt
      unfold lastMatchDetail at hstep
      rw [hstep]
      rw [List.filter_cons_of_neg (by simpa using hv)]

/-- With an empty header no row can match (every lookup of the game-name
column yields the empty string). -/
lemma rowMatches_nil (lookup : Option String) (excl vals : List String) :
    rowMatches [] lookup excl vals = false := by
  unfold rowMatches rowNameOf mkRow dget
  simp [strEmpty]

/-- A parse over a present file with a non-empty header always returns the
`return` dict built from the final loop state. -/
lemma result_some_of_fields (fields : List String) (records : List (List String))
    (raw : Option String) (excl nt : List String) (hf : fields.isEmpty = false) :
    (read_and_process_csv (.csv fields records) raw excl nt).result =
      some (mkSnapshot (loopStateOf (.csv fields records) raw excl) raw) := by
  unfold read_and_process_csv loopStateOf
  simp only [hf, Bool.false_eq_true, if_false]
  rcases hrun : runRecords (fields.map normStr) (lookupNameOf raw) raw excl .init records
    with ⟨s, b⟩
  cases b with
  | true => rfl
  | false =>
    rcases lookupNameOf raw with _ | l
    · rfl
    · simp only []
      split <;> rfl

/-- Rounding to the nearest integer with ties to even never turns a
non-negative number negative. -/
lemma rne_nonneg (q : ℚ) (hq : 0 ≤ q) : 0 ≤ rne q := by
  unfold rne
  have hfl : (0 : ℤ) ≤ ⌊q⌋ := Int.floor_nonneg.mpr hq
  split
  · split
    · exact hfl
    · omega
  · exact Int.floor_nonneg.mpr (by linarith)

/-- Python `round(q, 2)` of a non-negative number is non-negative. -/
lemma round2_nonneg (q : ℚ) (hq : 0 ≤ q) : 0 ≤ round2 q := by
  unfold round2
  have h1 : (0 : ℚ) ≤ (rne (q * 100) : ℚ) := by
    exact_mod_cast rne_nonneg (q * 100) (by positivity)
  positivity

/-! ## Claim C2 -/

/-- C2 counterexample: two non-excluded rows both named `"Halo"`; with lookup
name `"Halo"` the produced current-game detail shows `"7 / 20"` — the values
of the second (last) matching row — whereas the first matching row would give
`"5 / 10"`: the detail record is NOT built from the first match. -/
theorem c2_counterexample :
    ((read_and_process_csv
        (.csv F6 [["Halo", "Xbox", "100", "200", "5", "10"],
                  ["Halo", "Xbox", "999", "888", "7", "20"]])
        (some "Halo") [] []).result.bind
        Snapshot.current_game_details).map GameDetail.achievements = some "7 / 20" ∧
    rowMatches (F6.map normStr) (lookupNameOf (some "Halo")) []
      ["Halo", "Xbox", "100", "200", "5", "10"] = true ∧
    rowMatches (F6.map normStr) (lookupNameOf (some "Halo")) []
      ["Halo", "Xbox", "999", "888", "7", "20"] = true ∧
    (buildDetail (some "Halo") (F6.map normStr)
      ["Halo", "Xbox", "100", "200", "5", "10"]).achievements = "5 / 10" ∧
    ("7 / 20" : String) ≠ "5 / 10" := by
  decide

/-- C2 (amended): when a lookup name is supplied and several non-excluded
rows' game names are equal to it under the case-insensitive,
whitespace-trimmed comparison, exactly one current-game detail record is
produced (the detail slot holds a single record) and it is built from the
LAST such row in file order: over a crash-free scan, the produced detail is
that of the last row satisfying the match predicate. -/
theorem c2_last_match_wins (fields : List String) (records : List (List String))
    (raw : Option String) (excl nt : List String) (rm : List String)
    (hnc : ∀ r ∈ records, r.length ≤ fields.length)
    (hlast : (records.filter
        (rowMatches (fields.map normStr) (lookupNameOf raw) excl)).getLast? = some rm) :
    ∃ snap, (read_and_process_csv (.csv fields records) raw excl nt).result = some snap ∧
      snap.current_game_details = some (buildDetail raw (fields.map normStr) rm) := by
  have hf : fields.isEmpty = false := by
    cases fields with
    | nil =>
      exfalso
      have hnil : List.filter (rowMatches (List.map normStr []) (lookupNameOf raw) excl)
          records = [] := by
        apply List.filter_eq_nil_iff.mpr
        intro r _
        simp [rowMatches_nil]
      rw [hnil] at hlast
      simp at hlast
    | cons a l => rfl
  refine ⟨_, result_some_of_fields fields records raw excl nt hf, ?_⟩
  show (mkSnapshot (loopStateOf (.csv fields records) raw excl) raw).current_game_details = _
  unfold mkSnapshot loopStateOf
  simp only [hf, Bool.false_eq_true, if_false]
  have hfit : ∀ r ∈ records, r.length ≤ (fields.map normStr).length := by
    intro r hr; simpa using hnc r hr
  rw [runRecords_detail (fields.map normStr) (lookupNameOf raw) raw excl records LoopSt.init hfit]
  rw [lastMatchDetail_eq_getLast (fields.map normStr) (lookupNameOf raw) raw excl records
    LoopSt.init.detail]
  rw [hlast]

/-- C2 witness: the amended theorem applied to the duplicate-`"Halo"` input;
the detail is the second row's. -/
theorem c2_witness :
    ∃ snap, (read_and_process_csv
        (.csv F6 [["Halo", "Xbox", "100", "200", "5", "10"],
                  ["Halo", "Xbox", "999", "888", "7", "20"]])
        (some "Halo") [] []).result = some snap ∧
      snap.current_game_details = some (buildDetail (some "Halo") (F6.map normStr)
        ["Halo", "Xbox", "999", "888", "7", "20"]) :=
  c2_last_match_wins F6
    [["Halo", "Xbox", "100", "200", "5", "10"], ["Halo", "Xbox", "999", "888", "7", "20"]]
    (some "Halo") [] [] ["Halo", "Xbox", "999", "888", "7", "20"]
    (by decide) (by decide)

/-! ## Claim C3 -/

/-- C3 counterexample, refuting both false conjuncts of the claim.  First
input: a single row with 2 achievements won against a maximum of 1 (nothing
in the code prevents `achieved > max`), giving a completion percentage of
200, outside [0,100].  Second input: one achievement won against a maximum of
100000, giving `round(0.001, 2) = 0` although the max-achievements sum is
positive — so the percentage does not equal 0 exactly when the sum is 0. -/
theorem c3_counterexample :
    (∃ snap, (read_and_process_csv (.csv F6 [["A", "Xbox", "0", "0", "2", "1"]])
        none [] []).result = some snap ∧
      snap.completion_percentage = 200 ∧ ¬snap.completion_percentage ≤ 100) ∧
    (∃ snap, (read_and_process_csv (.csv F6 [["B", "Xbox", "0", "0", "1", "100000"]])
        none [] []).result = some snap ∧
      snap.completion_percentage = 0 ∧
      0 < (loopStateOf (.csv F6 [["B", "Xbox", "0", "0", "1", "100000"]]) none []).max_ach) := by
  constructor
  · refine ⟨mkSnapshot (loopStateOf (.csv F6 [["A", "Xbox", "0", "0", "2", "1"]]) none []) none,
      rfl, ?_⟩
    have hs : loopStateOf (.csv F6 [["A", "Xbox", "0", "0", "2", "1"]]) none [] =
        ⟨0, 0, 2, 1, 1, 1, none⟩ := by decide
    rw [hs]
    unfold mkSnapshot round2 rne
    norm_num
  · refine ⟨mkSnapshot (loopStateOf (.csv F6 [["B", "Xbox", "0", "0", "1", "100000"]]) none [])
      none, rfl, ?_, by decide⟩
    have hs : loopStateOf (.csv F6 [["B", "Xbox", "0", "0", "1", "100000"]]) none [] =
        ⟨0, 0, 1, 100000, 0, 1, none⟩ := by decide
    rw [hs]
    unfold mkSnapshot round2 rne
    norm_num [Int.floor_eq_iff]

/-- C3 (amended): for every CSV input whose parse returns a dict, the
completion percentage is non-negative; it equals 0 whenever the sum of
max-achievements over contributing rows is 0 (but may also round to 0 for a
positive sum); and when that sum is positive it equals
`round(total_achieved / total_max * 100, 2)` — a value that can exceed 100
when a row's achieved count exceeds its max. -/
theorem c3_completion_percentage (fs : FileState) (raw : Option String) (excl nt : List String)
    (snap : Snapshot) (h : (read_and_process_csv fs raw excl nt).result = some snap) :
    0 ≤ snap.completion_percentage ∧
    ((loopStateOf fs raw excl).max_ach = 0 → snap.completion_percentage = 0) ∧
    (0 < (loopStateOf fs raw excl).max_ach →
      snap.completion_percentage =
        round2 (((loopStateOf fs raw excl).total_ach : ℚ) /
          ((loopStateOf fs raw excl).max_ach : ℚ) * 100)) := by
  have hs := result_eq_mkSnapshot fs raw excl nt snap h
  subst hs
  unfold mkSnapshot
  refine ⟨?_, ?_, ?_⟩
  · by_cases hm : (loopStateOf fs raw excl).max_ach > 0
    · simp only [hm, if_true]
      exact round2_nonneg _ (by positivity)
    · simp [hm]
  · intro h0; simp [h0]
  · intro hpos; simp [hpos]

/-- C3 witness: the amended theorem applied to the 2-of-1 input (the
percentage there is `round2 200 = 200 ≥ 0`). -/
theorem c3_witness :
    0 ≤ (mkSnapshot (loopStateOf (.csv F6 [["A", "Xbox", "0", "0", "2", "1"]]) none []) none
      ).completion_percentage ∧
    ((loopStateOf (.csv F6 [["A", "Xbox", "0", "0", "2", "1"]]) none []).max_ach = 0 →
      (mkSnapshot (loopStateOf (.csv F6 [["A", "Xbox", "0", "0", "2", "1"]]) none []) none
        ).completion_percentage = 0) ∧
    (0 < (loopStateOf (.csv F6 [["A", "Xbox", "0", "0", "2", "1"]]) none []).max_ach →
      (mkSnapshot (loopStateOf (.csv F6 [["A", "Xbox", "0", "0", "2", "1"]]) none []) none
        ).completion_percentage =
        round2 (((loopStateOf (.csv F6 [["A", "Xbox", "0", "0", "2", "1"]]) none []).total_ach : ℚ)
          / ((loopStateOf (.csv F6 [["A", "Xbox", "0", "0", "2", "1"]]) none []).max_ach : ℚ)
          * 100)) :=
  c3_completion_percentage (.csv F6 [["A", "Xbox", "0", "0", "2", "1"]]) none [] []
    (mkSnapshot (loopStateOf (.csv F6 [["A", "Xbox", "0", "0", "2", "1"]]) none []) none) rfl

/-! ## Claim C4 -/

/-- C4: when the cache file is absent the parse returns the empty dict
(`return {}` at line 236, modeled as `none` — every aggregate key is simply
not present, i.e. carries no figure) with no notification and no state
change; when the file exists but cannot be opened, the whole-file `except`
yields the zeroed dict: every aggregate figure is 0, the completion
percentage is 0 and there is no current-game detail.  In both cases the
parse is a total function — no error reaches the caller. -/
theorem c4_absent_or_unreadable (raw : Option String) (excl nt : List String) :
    read_and_process_csv .absent raw excl nt = ⟨none, [], nt⟩ ∧
    ∃ snap, read_and_process_csv .unreadable raw excl nt = ⟨some snap, [], nt⟩ ∧
      snap.gamerscore = 0 ∧ snap.ta_score = 0 ∧ snap.total_games = 0 ∧
      snap.completed_games = 0 ∧ snap.total_achievements = 0 ∧
      snap.completion_percentage = 0 ∧ snap.current_game_details = none := by
  refine ⟨rfl, mkSnapshot LoopSt.init raw, rfl, rfl, rfl, rfl, rfl, rfl, ?_, rfl⟩
  unfold mkSnapshot LoopSt.init
  norm_num

/-! ## Claim C5 -/

/-- C5: one refresh cycle performs a network fetch iff the cache file is
absent or at least 24 hours (86400 seconds) old AND the auth-failure flag is
clear; in particular a cache file younger than 24h, or `authFailed = true`,
means zero network calls. -/
theorem c5_fetch_policy (st : CtrlState) (now : ℚ) (tag : String) (h : HttpResult) :
    (refreshStep st now tag h).2 = true ↔
      ((∀ f, st.file = some f → 86400 ≤ now - f.mtime) ∧ st.authFailed = false) := by
  unfold refreshStep does_network_fetch should_download
  rcases hf : st.file with _ | f <;> cases hauth : st.authFailed <;>
    simp [hf, hauth, not_lt]
  split_ifs with h86 <;> simp [h86]

/-- C5 witness: with no cache file and the flag clear a fetch happens; with a
cache file 1 second old no fetch happens; with `authFailed` set no fetch
happens. -/
theorem c5_witness :
    (refreshStep ⟨false, none, [], none⟩ 0 "g" .netError).2 = true ∧
    ¬(refreshStep ⟨false, some ⟨"data", 99⟩, [], none⟩ 100 "g" .netError).2 = true ∧
    ¬(refreshStep ⟨true, none, [], none⟩ 0 "g" .netError).2 = true := by
  refine ⟨?_, ?_, ?_⟩
  · exact (c5_fetch_policy ⟨false, none, [], none⟩ 0 "g" .netError).mpr
      ⟨(by intro f hf; cases hf), rfl⟩
  · intro hfetch
    have := ((c5_fetch_policy ⟨false, some ⟨"data", 99⟩, [], none⟩ 100 "g" .netError).mp
      hfetch).1 ⟨"data", 99⟩ rfl
    norm_num at this
  · intro hfetch
    have := ((c5_fetch_policy ⟨true, none, [], none⟩ 0 "g" .netError).mp hfetch).2
    simp at this

/-! ## Claim C6 -/

/-- C6: on an HTTP 401 or 403 response the auth-failure flag becomes true,
exactly one auth-error notification is appended and its identifier is the
constant `"ta_access_error"`, and when a cache file exists its modification
time becomes the current time while its content is byte-for-byte unchanged
(no file appears when none existed). -/
theorem c6_auth_error_effects (st : CtrlState) (tag : String) (status : Nat) (body : String)
    (now : ℚ) (hs : status = 401 ∨ status = 403) :
    (downloadStep st tag (.resp status body) now).authFailed = true ∧
    (downloadStep st tag (.resp status body) now).notifs = st.notifs ++ [authErrorNotif tag] ∧
    (authErrorNotif tag).notification_id = "ta_access_error" ∧
    (∀ f, st.file = some f →
      (downloadStep st tag (.resp status body) now).file = some ⟨f.content, now⟩) ∧
    (st.file = none → (downloadStep st tag (.resp status body) now).file = none) := by
  have h200 : ¬status = 200 := by rcases hs with h | h <;> omega
  unfold downloadStep
  simp only [h200, hs, if_true, if_false, ite_true, ite_false]
  rcases hfile : st.file with _ | f <;> simp [hfile] <;> rfl

/-- C6 witness: a 403 response with an existing cache file of content
`"old"`. -/
theorem c6_witness :
    (downloadStep ⟨false, some ⟨"old", 5⟩, [], none⟩ "g" (.resp 403 "x") 99).authFailed = true ∧
    (downloadStep ⟨false, some ⟨"old", 5⟩, [], none⟩ "g" (.resp 403 "x") 99).notifs =
      [] ++ [authErrorNotif "g"] ∧
    (authErrorNotif "g").notification_id = "ta_access_error" ∧
    (∀ f, (⟨false, some ⟨"old", 5⟩, [], none⟩ : CtrlState).file = some f →
      (downloadStep ⟨false, some ⟨"old", 5⟩, [], none⟩ "g" (.resp 403 "x") 99).file =
        some ⟨f.content, 99⟩) ∧
    ((⟨false, some ⟨"old", 5⟩, [], none⟩ : CtrlState).file = none →
      (downloadStep ⟨false, some ⟨"old", 5⟩, [], none⟩ "g" (.resp 403 "x") 99).file = none) :=
  c6_auth_error_effects ⟨false, some ⟨"old", 5⟩, [], none⟩ "g" 403 "x" 99 (Or.inr rfl)

/-! ## Claim C8 -/

/-- C8: persisting any byte string through `_write_file` and then parsing the
cache file yields a result identical — every aggregate figure included — to
parsing a pre-staged file holding the same bytes (with any modification
time): the write step stores the bytes verbatim and the parse depends only on
the file's content. -/
theorem c8_roundtrip (st : CtrlState) (content : String) (now m : ℚ) (raw : Option String)
    (excl nt : List String) :
    parseFromFile (write_file st content now).file raw excl nt =
      parseFromFile (some ⟨content, m⟩) raw excl nt := rfl

/-! ## Claim C7: notification deduplication across the process lifetime -/

/-- The lookup name a parse pass records in `_notified_games` when it emits
(the empty string stands for Python `None`, which never emits). -/
def theLookup (raw : Option String) : String :=
  (lookupNameOf raw).getD ""

/-- Every parse pass either emits nothing and leaves `_notified_games`
unchanged, or emits exactly the unmatched-game notification for its (truthy,
previously unrecorded) lookup name and records that name. -/
lemma parse_cases (fs : FileState) (raw : Option String) (excl nt : List String) :
    ((read_and_process_csv fs raw excl nt).notifs = [] ∧
      (read_and_process_csv fs raw excl nt).notified = nt) ∨
    (∃ l, lookupNameOf raw = some l ∧
      (read_and_process_csv fs raw excl nt).notifs = [unmatchedNotif l] ∧
      (read_and_process_csv fs raw excl nt).notified = nt ++ [l] ∧
      l ∉ nt ∧ strEmpty l = false) := by
  unfold read_and_process_csv
  cases fs with
  | absent => exact Or.inl ⟨rfl, rfl⟩
  | unreadable => exact Or.inl ⟨rfl, rfl⟩
  | csv fields records =>
    by_cases hf : fields.isEmpty
    · left; simp [hf]
    · simp only [hf, Bool.false_eq_true, if_false]
      rcases runRecords (fields.map normStr) (lookupNameOf raw) raw excl .init records
        with ⟨s, b⟩
      cases b with
      | true => exact Or.inl ⟨rfl, rfl⟩
      | false =>
        rcases hl : lookupNameOf raw with _ | l
        · exact Or.inl ⟨rfl, rfl⟩
        · simp only []
          split
          · rename_i hcond
            exact Or.inr ⟨l, rfl, rfl, rfl, hcond.2.2, by simpa using hcond.1⟩
          · exact Or.inl ⟨rfl, rfl⟩

/-- The `_notified_games` set only grows. -/
lemma parse_notified_mono (fs : FileState) (raw : Option String) (excl nt : List String)
    (x : String) (hx : x ∈ nt) : x ∈ (read_and_process_csv fs raw excl nt).notified := by
  rcases parse_cases fs raw excl nt with ⟨_, hnt⟩ | ⟨l, _, _, hnt, _, _⟩ <;> rw [hnt]
  · exact hx
  · simp [hx]

/-- A pass whose lookup name is already in `_notified_games` emits nothing. -/
lemma parse_no_emit_of_mem (fs : FileState) (raw : Option String) (excl nt : List String)
    (hmem : theLookup raw ∈ nt) : (read_and_process_csv fs raw excl nt).notifs = [] := by
  rcases parse_cases fs raw excl nt with ⟨h1, _⟩ | ⟨l, hl, _, _, hnmem, _⟩
  · exact h1
  · exfalso
    apply hnmem
    unfold theLookup at hmem
    rw [hl] at hmem
    simpa using hmem

/-- After a pass that emitted, the lookup name is in `_notified_games`. -/
lemma parse_emit_mem (fs : FileState) (raw : Option String) (excl nt : List String)
    (h : (read_and_process_csv fs raw excl nt).notifs ≠ []) :
    theLookup raw ∈ (read_and_process_csv fs raw excl nt).notified := by
  rcases parse_cases fs raw excl nt with ⟨h1, _⟩ | ⟨l, hl, _, hnt, _, _⟩
  · exact absurd h1 h
  · rw [hnt]
    unfold theLookup
    rw [hl]
    simp

/-- Number of passes of a refresh sequence that emit the unmatched-game
notification, threading `_notified_games` from pass to pass; each pass may
use a different cache-file state and excluded-apps configuration. -/
def countEmits (raw : Option String) : List (FileState × List String) → List String → Nat
  | [], _ => 0
  | (fs, e) :: rest, nt =>
    (if (read_and_process_csv fs raw e nt).notifs = [] then 0 else 1) +
      countEmits raw rest (read_and_process_csv fs raw e nt).notified

/-- Once the lookup name is recorded, no later pass emits. -/
lemma countEmits_zero_of_mem (raw : Option String) :
    ∀ (inputs : List (FileState × List String)) (nt : List String),
      theLookup raw ∈ nt → countEmits raw inputs nt = 0 := by
  intro inputs
  induction inputs with
  | nil => intro nt _; rfl
  | cons p rest ih =>
    intro nt hmem
    rcases p with ⟨fs, e⟩
    unfold countEmits
    rw [if_pos (parse_no_emit_of_mem fs raw e nt hmem)]
    rw [ih _ (parse_notified_mono fs raw e nt _ hmem)]

/-- Across any sequence of passes the unmatched-game notification fires at
most once. -/
lemma countEmits_le_one (raw : Option String) :
    ∀ (inputs : List (FileState × List String)) (nt : List String),
      countEmits raw inputs nt ≤ 1 := by
  intro inputs
  induction inputs with
  | nil => intro nt; exact Nat.zero_le 1
  | cons p rest ih =>
    intro nt
    rcases p with ⟨fs, e⟩
    unfold countEmits
    by_cases hemit : (read_and_process_csv fs raw e nt).notifs = []
    · rw [if_pos hemit]
      simpa using ih _
    · rw [if_neg hemit]
      have h0 := countEmits_zero_of_mem raw rest _ (parse_emit_mem fs raw e nt hemit)
      omega

/-- A crash-free scan reaches the post-loop notification block. -/
lemma runRecords_no_crash (nfields : List String) (lookup raw : Option String)
    (excl : List String) :
    ∀ (l : List (List String)) (s : LoopSt), (∀ r ∈ l, r.length ≤ nfields.length) →
      (runRecords nfields lookup raw excl s l).2 = false := by
  intro l
  induction l with
  | nil => intro s _; rfl
  | cons v vs ih =>
    intro s hfit
    have hv : ¬nfields.length < v.length := by
      have := hfit v (by simp)
      omega
    unfold runRecords
    rw [processRecord_fit nfields lookup raw excl s v hv]
    exact ih _ (fun r hr => hfit r (by simp [hr]))

/-- C7: across the whole process lifetime the "game not recognized"
notification is emitted at most once per lookup name, and a parse pass that
scans a present well-formed file without finding any matching non-excluded
row — with the name not yet recorded — emits it (exactly one notification,
and the name is recorded to suppress repeats).  `countEmits` threads
`_notified_games` through an arbitrary sequence of subsequent passes. -/
theorem c7_unmatched_notified_once (raw : Option String)
    (inputs : List (FileState × List String)) (nt : List String)
    (fields : List String) (records : List (List String)) (excl : List String) (l : String)
    (hl : lookupNameOf raw = some l) (hne : strEmpty l = false) (hmem : l ∉ nt)
    (hf : fields.isEmpty = false)
    (hnc : ∀ r ∈ records, r.length ≤ fields.length)
    (hnm : ∀ r ∈ records,
      rowMatches (fields.map normStr) (lookupNameOf raw) excl r = false) :
    (read_and_process_csv (.csv fields records) raw excl nt).notifs = [unmatchedNotif l] ∧
    (read_and_process_csv (.csv fields records) raw excl nt).notified = nt ++ [l] ∧
    countEmits raw inputs nt ≤ 1 := by
  have hfit : ∀ r ∈ records, r.length ≤ (fields.map normStr).length := by
    intro r hr; simpa using hnc r hr
  have hdet : (loopStateOf (.csv fields records) raw excl).detail = none := by
    unfold loopStateOf
    simp only [hf, Bool.false_eq_true, if_false]
    rw [runRecords_detail (fields.map normStr) (lookupNameOf raw) raw excl records
        LoopSt.init hfit]
    rw [lastMatchDetail_eq_getLast]
    have hnil : List.filter (rowMatches (fields.map normStr) (lookupNameOf raw) excl)
        records = [] :=
      List.filter_eq_nil_iff.mpr (fun r hr => by simp [hnm r hr])
    rw [hnil]
    rfl
  have hcrash := runRecords_no_crash (fields.map normStr) (lookupNameOf raw) raw excl
    records LoopSt.init hfit
  refine ⟨?_, ?_, countEmits_le_one raw inputs nt⟩ <;>
  · unfold read_and_process_csv
    simp only [hf, Bool.false_eq_true, if_false]
    unfold loopStateOf at hdet
    simp only [hf, Bool.false_eq_true, if_false] at hdet
    rcases hrun : runRecords (fields.map normStr) (lookupNameOf raw) raw excl .init records
      with ⟨s, b⟩
    rw [hrun] at hcrash hdet
    cases b with
    | true => simp at hcrash
    | false =>
      rw [hl]
      simp only []
      rw [if_pos ⟨by simp [hne], by simpa using hdet, hmem⟩]

/-- C7 witness: lookup name `"Foo"`, a file whose only row is `"Bar"`: the
first pass emits exactly one notification and records the name; over two
such consecutive passes the count of emissions is at most one. -/
theorem c7_witness :
    (read_and_process_csv (.csv F6 [["Bar", "Xbox", "1", "1", "1", "1"]])
      (some "Foo") [] []).notifs = [unmatchedNotif "Foo"] ∧
    (read_and_process_csv (.csv F6 [["Bar", "Xbox", "1", "1", "1", "1"]])
      (some "Foo") [] []).notified = [] ++ ["Foo"] ∧
    countEmits (some "Foo")
      [(.csv F6 [["Bar", "Xbox", "1", "1", "1", "1"]], []),
       (.csv F6 [["Bar", "Xbox", "1", "1", "1", "1"]], [])] [] ≤ 1 :=
  c7_unmatched_notified_once (some "Foo")
    [(.csv F6 [["Bar", "Xbox", "1", "1", "1", "1"]], []),
     (.csv F6 [["Bar", "Xbox", "1", "1", "1", "1"]], [])] []
    F6 [["Bar", "Xbox", "1", "1", "1", "1"]] [] "Foo"
    (by decide) (by decide) (by decide) (by decide) (by decide) (by decide)

/-! ## Claim C10 -/

/-- A loop iteration either leaves the detail slot as it was or stores this
row's freshly built detail. -/
lemma processRecord_detail_cases (nfields : List String) (lookup raw : Option String)
    (excl : List String) (s : LoopSt) (vals : List String) :
    (stateOf (processRecord nfields lookup raw excl s vals)).detail = s.detail ∨
    (stateOf (processRecord nfields lookup raw excl s vals)).detail =
      some (buildDetail raw nfields vals) := by
  unfold processRecord
  by_cases hc : nfields.length < vals.length
  · left; simp [hc, stateOf]
  · by_cases hn : strEmpty (rowNameOf nfields vals)
    · left; simp [hc, hn, stateOf]
    · by_cases he : rowExcluded nfields excl vals
      · left; simp [hc, hn, he, stateOf]
      · by_cases hm : matchGuard lookup (rowNameOf nfields vals)
        · right
          simp only [hc, if_false, hn, Bool.false_eq_true, he, hm, if_true, ite_true,
            ite_false, stateOf]
          split <;> rfl
        · left
          simp only [hc, if_false, hn, Bool.false_eq_true, he, hm, if_true, ite_true,
            ite_false, stateOf]
          split <;> rfl

/-- Every detail ever stored during a scan carries the raw external name in
its `name` field. -/
lemma runRecords_detail_name (nfields : List String) (lookup raw : Option String)
    (excl : List String) :
    ∀ (l : List (List String)) (s : LoopSt),
      (∀ d, s.detail = some d → d.name = raw) →
      ∀ d, ((runRecords nfields lookup raw excl s l).1).detail = some d → d.name = raw := by
  intro l
  induction l with
  | nil => intro s hs d hd; exact hs d hd
  | cons v vs ih =>
    intro s hs d hd
    have hcases := processRecord_detail_cases nfields lookup raw excl s v
    have hnext : ∀ d', (stateOf (processRecord nfields lookup raw excl s v)).detail = some d' →
        d'.name = raw := by
      intro d' hd'
      rcases hcases with hsame | hnew
      · exact hs d' (hsame ▸ hd')
      · rw [hnew] at hd'
        have : d' = buildDetail raw nfields v := by injection hd' with h; exact h.symm
        rw [this]
        rfl
    unfold runRecords at hd
    cases hp : processRecord nfields lookup raw excl s v with
    | error s' =>
      rw [hp] at hd
      apply hnext d
      rw [hp]
      exact hd
    | ok s' =>
      rw [hp] at hd
      refine ih s' ?_ d hd
      intro d' hd'
      apply hnext d'
      rw [hp]
      exact hd'

/-- C10: whenever a current-game detail record is produced, its `name` field
is the externally reported game name exactly as given, before name-mapping —
even though row matching compares against the mapped lookup name; and for
the mapped name `"Minecraft for Android"` any row that satisfies the match
comparison necessarily has a game name different from that raw name, so the
detail's name differs from the matched row's game name. -/
theorem c10_detail_name_premapping (fs : FileState) (raw : Option String)
    (excl nt : List String) (snap : Snapshot) (d : GameDetail)
    (h1 : (read_and_process_csv fs raw excl nt).result = some snap)
    (h2 : snap.current_game_details = some d) :
    d.name = raw ∧
    (∀ nfields vals, raw = some "Minecraft for Android" →
      matchGuard (lookupNameOf raw) (rowNameOf nfields vals) = true →
      rowNameOf nfields vals ≠ "Minecraft for Android") := by
  constructor
  · have hs := result_eq_mkSnapshot fs raw excl nt snap h1
    subst hs
    have hd : (loopStateOf fs raw excl).detail = some d := by
      simpa [mkSnapshot] using h2
    unfold loopStateOf at hd
    cases fs with
    | absent => exact absurd hd (by simp [LoopSt.init])
    | unreadable => exact absurd hd (by simp [LoopSt.init])
    | csv fields records =>
      simp only [] at hd
      by_cases hf : fields.isEmpty
      · rw [if_pos hf] at hd
        exact absurd hd (by simp [LoopSt.init])
      · simp only [hf, Bool.false_eq_true, if_false] at hd
        exact runRecords_detail_name (fields.map normStr) (lookupNameOf raw) raw excl
          records LoopSt.init (by intro d' h'; simp [LoopSt.init] at h') d hd
  · intro nfields vals hraw hm
    subst hraw
    intro heq
    rw [heq] at hm
    exact absurd hm (by decide)

/-- C10 witness: with external name `"Minecraft for Android"` the row named
`"Minecraft (Android)"` matches, and the produced detail's name is the raw
external name (which differs from the matched row's game name). -/
theorem c10_witness :
    (buildDetail (some "Minecraft for Android") (F6.map normStr)
      ["Minecraft (Android)", "Xbox", "10", "10", "5", "10"]).name =
      some "Minecraft for Android" ∧
    (∀ nfields vals, (some "Minecraft for Android" : Option String) =
        some "Minecraft for Android" →
      matchGuard (lookupNameOf (some "Minecraft for Android"))
        (rowNameOf nfields vals) = true →
      rowNameOf nfields vals ≠ "Minecraft for Android") :=
  c10_detail_name_premapping
    (.csv F6 [["Minecraft (Android)", "Xbox", "10", "10", "5", "10"]])
    (some "Minecraft for Android") [] []
    (mkSnapshot (loopStateOf
      (.csv F6 [["Minecraft (Android)", "Xbox", "10", "10", "5", "10"]])
      (some "Minecraft for Android") []) (some "Minecraft for Android"))
    (buildDetail (some "Minecraft for Android") (F6.map normStr)
      ["Minecraft (Android)", "Xbox", "10", "10", "5", "10"])
    rfl (by decide)

end TrueAch
